import Mathlib

/-!
Shallow embedding of the expert-ingestion backend
(`backend/app/services/change_detection.py`, `expert_dedupe.py`,
`auto_ingestion.py`, `expert_commit.py`, `outlook_scanning.py`,
`db/queries/scan_runs.py`, `db/queries/scanned_emails.py`)
together with proofs settling the spec claims.

Conventions of the embedding:
* Python `str` is Lean `String`; Python `None` vs a string is `Option String`.
* Python float scores are modelled as `ℚ`; every score in the source is
  produced by exact arithmetic on small values, and the claims compare
  identical expressions, so the rational model is faithful.
* Python dicts keyed by field name are modelled as `String → Option String`.
* Python's whitespace class is modelled by `Char.isWhitespace`
  (the ASCII range, which is all the data model uses).
-/

/-! ## Normalizer (`change_detection.py`) -/

/-- Python `str.strip()`: drop whitespace from both ends. -/
def pyStrip (l : List Char) : List Char :=
  ((l.dropWhile Char.isWhitespace).reverse.dropWhile Char.isWhitespace).reverse

/-- Python `re.sub(r'\s+', ' ', s)`: collapse every maximal whitespace run
to a single space. -/
def collapseRuns : List Char → List Char
  | [] => []
  | [c] => if c.isWhitespace then [' '] else [c]
  | c :: c2 :: cs =>
    if c.isWhitespace && c2.isWhitespace then collapseRuns (c2 :: cs)
    else (if c.isWhitespace then ' ' else c) :: collapseRuns (c2 :: cs)

/-- Python `s.lower()` (ASCII range). -/
def pyLower (s : String) : String := String.mk (s.data.map Char.toLower)

/-- `value.strip()` followed by `re.sub(r'\s+', ' ', value)` as in
`normalize_value`. -/
def pyNormWS (s : String) : String := String.mk (collapseRuns (pyStrip s.data))

/-- The lowercased string members of `UNKNOWN_VALUES` (the `None` member is
handled by the `Option` match in `normalize_value`; duplicate casings of the
source set collapse to these). -/
def unknown_values_lower : List String :=
  ["", "tbd", "unknown", "n/a", "na", "none", "pending",
   "to be determined", "to be confirmed"]

/-- `change_detection.normalize_value`. -/
def normalize_value (value : Option String) : Option String :=
  match value with
  | none => none
  | some s =>
    let v := pyNormWS s
    if unknown_values_lower.contains (pyLower v) then none
    else if v = "" then none
    else some v

/-- The dash replacement `replace('–', '-').replace('—', '-')`. -/
def dashNorm (c : Char) : Char := if c = '–' || c = '—' then '-' else c

/-- The character class `[,;:]`. -/
def punctCls (c : Char) : Bool := c = ',' || c = ';' || c = ':'

/-- Scanner mode for `punctSub`: outside a match, absorbing the `[,;:]+`
part of a match, or absorbing its trailing `\s*` part. -/
inductive PMode | norm | inPunct | inWS

/-- One-pass scanner implementing `re.sub(r'[,;:]+\s*', ', ', s)`:
each maximal run of `[,;:]` plus optional trailing whitespace becomes `", "`. -/
def punctSubA : PMode → List Char → List Char
  | _, [] => []
  | .norm, c :: cs =>
    if punctCls c then ',' :: ' ' :: punctSubA .inPunct cs
    else c :: punctSubA .norm cs
  | .inPunct, c :: cs =>
    if punctCls c then punctSubA .inPunct cs
    else if c.isWhitespace then punctSubA .inWS cs
    else c :: punctSubA .norm cs
  | .inWS, c :: cs =>
    if c.isWhitespace then punctSubA .inWS cs
    else if punctCls c then ',' :: ' ' :: punctSubA .inPunct cs
    else c :: punctSubA .norm cs

/-- Python `re.sub(r'[,;:]+\s*', ', ', s)`. -/
def punctSub (l : List Char) : List Char := punctSubA .norm l

/-- `change_detection.normalize_for_comparison`. -/
def normalize_for_comparison (value : Option String) : Option String :=
  match normalize_value value with
  | none => none
  | some s => some (String.mk (punctSub ((pyLower s).data.map dashNorm)))

/-- `change_detection.values_are_equal`. -/
def values_are_equal (old_value new_value : Option String) : Bool :=
  match normalize_for_comparison old_value, normalize_for_comparison new_value with
  | none, none => true
  | none, some _ => false
  | some _, none => false
  | some x, some y => x == y

/-- `change_detection.is_meaningful_value`. -/
def is_meaningful_value (v : Option String) : Bool := (normalize_value v).isSome

/-- `change_detection.compute_field_changes`. -/
def compute_field_changes (existing_data new_data : String → Option String)
    (field_mappings : List (String × String)) :
    List (String × Option String × Option String) :=
  field_mappings.filterMap fun fm =>
    let old_value := existing_data fm.1
    let new_value := new_data fm.2
    if values_are_equal old_value new_value then none
    else if !(is_meaningful_value new_value) then none
    else some (fm.1, old_value, new_value)

/-! Helper lemmas about the normalizer. -/

lemma normalize_for_comparison_eq_none {v : Option String} :
    normalize_for_comparison v = none ↔ normalize_value v = none := by
  unfold normalize_for_comparison
  cases h : normalize_value v <;> simp

lemma values_are_equal_of_both_unknown {a b : Option String}
    (ha : normalize_value a = none) (hb : normalize_value b = none) :
    values_are_equal a b = true := by
  unfold values_are_equal
  rw [show normalize_for_comparison a = none from
        normalize_for_comparison_eq_none.mpr ha,
      show normalize_for_comparison b = none from
        normalize_for_comparison_eq_none.mpr hb]

/-- C2: if `values_are_equal` holds on every mapped field pair then the diff
is empty, and no emitted change has both sides normalizing to absent. -/
theorem noop_law (existing_data new_data : String → Option String)
    (field_mappings : List (String × String)) :
    ((∀ fm ∈ field_mappings,
        values_are_equal (existing_data fm.1) (new_data fm.2) = true) →
      compute_field_changes existing_data new_data field_mappings = []) ∧
    (∀ f ov nv,
      (f, ov, nv) ∈ compute_field_changes existing_data new_data field_mappings →
      ¬(normalize_value ov = none ∧ normalize_value nv = none)) := by
  constructor
  · intro h
    unfold compute_field_changes
    rw [List.filterMap_eq_nil_iff]
    intro fm hfm
    have := h fm hfm
    simp [this]
  · intro f ov nv hmem ⟨hov, hnv⟩
    unfold compute_field_changes at hmem
    rw [List.mem_filterMap] at hmem
    obtain ⟨fm, _, hfm⟩ := hmem
    by_cases heq : values_are_equal (existing_data fm.1) (new_data fm.2) = true
    · simp [heq] at hfm
    · by_cases hm : is_meaningful_value (new_data fm.2) = true
      · simp [heq, hm] at hfm
        obtain ⟨hf, hov', hnv'⟩ := hfm
        subst hov'
        subst hnv'
        exact heq (values_are_equal_of_both_unknown hov hnv)
      · simp [heq, hm] at hfm

/-- Closed instance of the no-op law. -/
theorem noop_law_witness :
    compute_field_changes
      (fun k => if k = "canonicalEmployer" then some "Acme" else none)
      (fun k => if k = "employer" then some " acme " else none)
      [("canonicalEmployer", "employer")] = [] :=
  (noop_law _ _ _).1 (by decide)

/-- C7: `values_are_equal` is the both-absent / one-absent / compare-normalized
decision procedure, with `("TBD", None)` equal and `("TBD", "cleared")` not. -/
theorem values_are_equal_spec :
    values_are_equal (some "TBD") none = true ∧
    values_are_equal (some "TBD") (some "cleared") = false ∧
    (∀ a b : Option String, normalize_for_comparison a = none →
      normalize_for_comparison b = none → values_are_equal a b = true) ∧
    (∀ a b : Option String, normalize_for_comparison a = none →
      normalize_for_comparison b ≠ none → values_are_equal a b = false) ∧
    (∀ a b : Option String, normalize_for_comparison a ≠ none →
      normalize_for_comparison b = none → values_are_equal a b = false) ∧
    (∀ (a b : Option String) (x y : String), normalize_for_comparison a = some x →
      normalize_for_comparison b = some y →
      (values_are_equal a b = true ↔ x = y)) := by
  refine ⟨by decide, by decide, ?_, ?_, ?_, ?_⟩
  · intro a b ha hb
    unfold values_are_equal
    rw [ha, hb]
  · intro a b ha hb
    unfold values_are_equal
    rw [ha]
    cases h : normalize_for_comparison b
    · exact absurd h hb
    · rfl
  · intro a b ha hb
    unfold values_are_equal
    rw [hb]
    cases h : normalize_for_comparison a
    · exact absurd h ha
    · rfl
  · intro a b x y ha hb
    unfold values_are_equal
    rw [ha, hb]
    simp

/-- Closed instance of the `values_are_equal` case law. -/
theorem values_are_equal_spec_witness :
    values_are_equal (some "n/a") (some "  ") = true :=
  values_are_equal_spec.2.2.1 (some "n/a") (some "  ") (by decide) (by decide)

/-! ## Availability comparison (`change_detection.py`) -/

/-- Lexicographic code-point comparison of character lists; this is Python's
`str` ordering used by `list.sort()`. -/
def lexLe : List Char → List Char → Bool
  | [], _ => true
  | _ :: _, [] => false
  | a :: as, b :: bs => if a = b then lexLe as bs else decide (a < b)

/-- Python string `<=` on `String`. -/
def strLeB (a b : String) : Bool := lexLe a.data b.data

lemma lexLe_total (a b : List Char) : lexLe a b = true ∨ lexLe b a = true := by
  induction a generalizing b with
  | nil => exact Or.inl rfl
  | cons x xs ih =>
    cases b with
    | nil => exact Or.inr rfl
    | cons y ys =>
      by_cases hxy : x = y
      · subst hxy
        rcases ih ys with h | h
        · exact Or.inl (by simp [lexLe, h])
        · exact Or.inr (by simp [lexLe, h])
      · rcases lt_or_gt_of_ne hxy with h | h
        · exact Or.inl (by simp [lexLe, hxy, h])
        · exact Or.inr (by simp [lexLe, Ne.symm hxy, h])

lemma lexLe_antisymm {a b : List Char} (h1 : lexLe a b = true)
    (h2 : lexLe b a = true) : a = b := by
  induction a generalizing b with
  | nil =>
    cases b with
    | nil => rfl
    | cons y ys => simp [lexLe] at h2
  | cons x xs ih =>
    cases b with
    | nil => simp [lexLe] at h1
    | cons y ys =>
      by_cases hxy : x = y
      · subst hxy
        simp only [lexLe, if_pos rfl] at h1 h2
        rw [ih h1 h2]
      · simp only [lexLe, if_neg hxy, decide_eq_true_eq] at h1
        simp only [lexLe, if_neg (Ne.symm hxy), decide_eq_true_eq] at h2
        exact absurd (lt_trans h1 h2) (lt_irrefl x)

lemma lexLe_trans {a b c : List Char} (h1 : lexLe a b = true)
    (h2 : lexLe b c = true) : lexLe a c = true := by
  induction a generalizing b c with
  | nil => rfl
  | cons x xs ih =>
    cases b with
    | nil => simp [lexLe] at h1
    | cons y ys =>
      cases c with
      | nil => simp [lexLe] at h2
      | cons z zs =>
        by_cases hxy : x = y <;> by_cases hyz : y = z
        · subst hxy; subst hyz
          simp only [lexLe, if_pos rfl] at h1 h2 ⊢
          exact ih h1 h2
        · subst hxy
          simpa [lexLe, hyz] using h2
        · subst hyz
          simpa [lexLe, hxy] using h1
        · simp only [lexLe, if_neg hxy, decide_eq_true_eq] at h1
          simp only [lexLe, if_neg hyz, decide_eq_true_eq] at h2
          have hxz : x < z := lt_trans h1 h2
          simp [lexLe, ne_of_lt hxz, hxz]

/-- The sort relation used to model Python `list.sort()` over strings. -/
def pySortRel : String → String → Prop := fun a b => strLeB a b = true

instance : DecidableRel pySortRel := fun a b => by
  unfold pySortRel; infer_instance

instance : IsTotal String pySortRel :=
  ⟨fun a b => lexLe_total a.data b.data⟩

instance : IsTrans String pySortRel :=
  ⟨fun _ _ _ h1 h2 => lexLe_trans h1 h2⟩

instance : IsAntisymm String pySortRel :=
  ⟨fun a b h1 h2 => by
    cases a; cases b; exact congrArg String.mk (lexLe_antisymm h1 h2)⟩

/-- `change_detection.normalize_availability_list`: normalize each entry,
keep the truthy ones, sort, and join with `"|"`. -/
def normalize_availability_list (availability : Option (List String)) :
    Option String :=
  match availability with
  | none => none
  | some l =>
    if l = [] then none
    else
      let normalized := l.filterMap fun item =>
        match normalize_for_comparison (some item) with
        | some n => if n ≠ "" then some n else none
        | none => none
      if normalized = [] then none
      else some (String.intercalate "|" (normalized.insertionSort pySortRel))

/-- Python `s.split(',')` on the character list. -/
def splitOnComma : List Char → List (List Char)
  | [] => [[]]
  | c :: cs =>
    if c = ',' then [] :: splitOnComma cs
    else
      match splitOnComma cs with
      | t :: ts => (c :: t) :: ts
      | [] => [[c]]

/-- `change_detection.availability_changed`. -/
def availability_changed (existing_availability : Option String)
    (new_availability : Option (List String)) : Bool :=
  let existing_list : List String :=
    match existing_availability with
    | some e =>
      if e ≠ "" then (splitOnComma e.data).map (fun part => String.mk (pyStrip part))
      else []
    | none => []
  match normalize_availability_list (some existing_list),
        normalize_availability_list new_availability with
  | none, none => false
  | none, some _ => true
  | some _, none => true
  | some x, some y => x != y

lemma normalize_availability_list_perm {l l' : List String} (h : l.Perm l') :
    normalize_availability_list (some l) = normalize_availability_list (some l') := by
  simp only [normalize_availability_list]
  by_cases hl : l = []
  · subst hl
    have : l' = [] := (h.symm).eq_nil
    simp [this]
  · have hl' : l' ≠ [] := fun he => hl (List.Perm.eq_nil (he ▸ h))
    rw [if_neg hl, if_neg hl']
    have hfm := h.filterMap fun item =>
      match normalize_for_comparison (some item) with
      | some n => if n ≠ "" then some n else none
      | none => none
    by_cases hn :
        (l.filterMap fun item =>
          match normalize_for_comparison (some item) with
          | some n => if n ≠ "" then some n else none
          | none => none) = []
    · have hn' :
          (l'.filterMap fun item =>
            match normalize_for_comparison (some item) with
            | some n => if n ≠ "" then some n else none
            | none => none) = [] := List.Perm.eq_nil (hn ▸ hfm).symm
      simp only [hn, hn', if_pos rfl]
    · have hn' :
          (l'.filterMap fun item =>
            match normalize_for_comparison (some item) with
            | some n => if n ≠ "" then some n else none
            | none => none) ≠ [] := fun he => hn (List.Perm.eq_nil (he ▸ hfm))
      rw [if_neg hn, if_neg hn']
      have hsorted :
          List.insertionSort pySortRel
            (l.filterMap fun item =>
              match normalize_for_comparison (some item) with
              | some n => if n ≠ "" then some n else none
              | none => none) =
          List.insertionSort pySortRel
            (l'.filterMap fun item =>
              match normalize_for_comparison (some item) with
              | some n => if n ≠ "" then some n else none
              | none => none) := by
        apply List.eq_of_perm_of_sorted (r := pySortRel)
        · exact (List.perm_insertionSort _ _).trans
            (hfm.trans (List.perm_insertionSort _ _).symm)
        · exact List.sorted_insertionSort _ _
        · exact List.sorted_insertionSort _ _
      rw [hsorted]

/-- C3 counterexample: `normalize_availability_list` sorts but does not
deduplicate, so a repeated entry is reported as a change against the same
list without the repetition. -/
theorem availability_changed_not_dedup :
    availability_changed (some "Monday, Monday") (some ["Monday"]) = true := by
  decide

/-- C3 amended: `availability_changed` compares sorted, comparison-normalized
token joins, so it is invariant under reordering the extracted list (and under
case, dash and whitespace variation), but duplicates are preserved. -/
theorem availability_changed_amended :
    (∀ (e : Option String) (l l' : List String), l.Perm l' →
      availability_changed e (some l) = availability_changed e (some l')) ∧
    availability_changed (some "MONDAY –  Tuesday") (some ["monday - tuesday"]) =
      false := by
  constructor
  · intro e l l' h
    unfold availability_changed
    rw [normalize_availability_list_perm h]
  · decide

/-- Closed instance of the order-invariance half of the amended C3. -/
theorem availability_changed_amended_witness :
    availability_changed none (some ["b", "a"]) =
      availability_changed none (some ["a", "b"]) :=
  availability_changed_amended.1 none ["b", "a"] ["a", "b"] (by decide)

/-! ## Status-cue mappings and the update pipeline
(`auto_ingestion.py`, `expert_commit.py`) -/

/-- The `status_mapping` dict inside
`AutoIngestionService._update_existing_expert`. -/
def status_mapping_auto_table : List (String × String) :=
  [("available", "recommended"), ("interested", "recommended"),
   ("pending", "pending"), ("declined", "declined"),
   ("conflict", "declined"), ("not_a_fit", "declined"),
   ("no_longer_available", "declined")]

/-- `status_mapping.get(extracted.statusCue)` in `_update_existing_expert`. -/
def status_mapping_auto (cue : String) : Option String :=
  status_mapping_auto_table.lookup cue

/-- The `mapping` dict inside `expert_commit.map_status_cue_to_status`. -/
def commit_status_table : List (String × String) :=
  [("available", "recommended"), ("declined", "declined"),
   ("conflict", "conflict"), ("not_a_fit", "screened_out"),
   ("no_longer_available", "declined"), ("pending", "awaiting_screeners"),
   ("interested", "recommended"), ("unknown", "recommended")]

/-- `expert_commit.map_status_cue_to_status`. -/
def map_status_cue_to_status (status_cue : Option String) : String :=
  match status_cue with
  | none => "recommended"
  | some c =>
    if c = "" then "recommended"
    else (commit_status_table.lookup c).getD "recommended"

/-- The fields of `ExtractedExpert` consulted by the canonical-record update
path (`schemas/expert_extraction.py`; network-scoped fields such as screener
responses only feed the per-source rows, never the canonical record). -/
structure ExtractedExpert where
  fullName : String
  employer : Option String
  title : Option String
  conflictStatus : Option String
  conflictId : Option String
  statusCue : Option String
  availabilityWindows : Option (List String)

/-- One guarded entry of the `updates` dict in `_update_existing_expert`:
the value is staged only when the change test passes and the field has no
`UserEdit` row. -/
def updEntry (field : String) (cond : Bool) (v : Option String)
    (user_edits : List String) : List (String × Option String) :=
  if cond then (if field ∈ user_edits then [] else [(field, v)]) else []

/-- The `=== STATUS CUE ===` block of `_update_existing_expert`. -/
def statusUpd (e : ExtractedExpert) (existing : String → Option String)
    (user_edits : List String) : List (String × Option String) :=
  match e.statusCue with
  | none => []
  | some cue =>
    if cue ≠ "" ∧ cue ≠ "unknown" then
      match status_mapping_auto cue with
      | none => []
      | some new_status =>
        if "status" ∈ user_edits then []
        else if new_status ≠ (existing "status").getD "recommended" then
          [("status", some new_status)]
        else []
    else []

/-- The `updates` dict accumulated by `_update_existing_expert` before the
single `experts.update_expert(db, id, **updates)` call. -/
def build_updates (e : ExtractedExpert) (existing : String → Option String)
    (user_edits : List String) : List (String × Option String) :=
  updEntry "canonicalEmployer"
      (is_meaningful_value e.employer &&
       !values_are_equal e.employer (existing "canonicalEmployer"))
      e.employer user_edits
  ++ updEntry "canonicalTitle"
      (is_meaningful_value e.title &&
       !values_are_equal e.title (existing "canonicalTitle"))
      e.title user_edits
  ++ updEntry "conflictStatus"
      (is_meaningful_value e.conflictStatus &&
       !values_are_equal e.conflictStatus (existing "conflictStatus"))
      e.conflictStatus user_edits
  ++ updEntry "conflictId"
      (is_meaningful_value e.conflictId &&
       !values_are_equal e.conflictId (existing "conflictId"))
      e.conflictId user_edits
  ++ statusUpd e existing user_edits

/-- `experts.update_expert(db, id, **updates)`: the stored record after
applying the staged updates. -/
def apply_updates (existing : String → Option String)
    (updates : List (String × Option String)) : String → Option String :=
  fun k =>
    match updates.lookup k with
    | some v => v
    | none => existing k

lemma updEntry_not_pinned {field : String} {cond : Bool} {v : Option String}
    {user_edits : List String} {p : String × Option String}
    (hp : p ∈ updEntry field cond v user_edits) : p.1 ∉ user_edits := by
  unfold updEntry at hp
  split_ifs at hp with h1 h2
  · simp at hp
  · simp at hp
    subst hp
    exact h2
  · simp at hp

lemma statusUpd_not_pinned {e : ExtractedExpert}
    {existing : String → Option String} {user_edits : List String}
    {p : String × Option String}
    (hp : p ∈ statusUpd e existing user_edits) : p.1 ∉ user_edits := by
  cases hcue : e.statusCue with
  | none => simp [statusUpd, hcue] at hp
  | some cue =>
    simp only [statusUpd, hcue] at hp
    by_cases h1 : cue ≠ "" ∧ cue ≠ "unknown"
    · rw [if_pos h1] at hp
      cases hmap : status_mapping_auto cue with
      | none => simp [hmap] at hp
      | some ns =>
        simp only [hmap] at hp
        by_cases h2 : "status" ∈ user_edits
        · rw [if_pos h2] at hp; simp at hp
        · rw [if_neg h2] at hp
          by_cases h3 : ns ≠ (existing "status").getD "recommended"
          · rw [if_pos h3] at hp
            simp at hp
            subst hp
            exact h2
          · rw [if_neg h3] at hp; simp at hp
    · rw [if_neg h1] at hp; simp at hp

lemma lookup_eq_none_of_keys {β : Type} {l : List (String × β)} {f : String}
    (h : ∀ p ∈ l, p.1 ≠ f) : l.lookup f = none := by
  induction l with
  | nil => rfl
  | cons p ps ih =>
    obtain ⟨k, v⟩ := p
    have hne : k ≠ f := h (k, v) (List.mem_cons_self _ _)
    have hk : (f == k) = false := beq_eq_false_iff_ne.mpr (Ne.symm hne)
    simp only [List.lookup, hk]
    exact ih fun q hq => h q (List.mem_cons_of_mem _ hq)

/-- C8: a field with a `UserEdit` row is never present in the staged updates,
so the stored value survives any later ingestion unchanged. -/
theorem pinned_fields_never_overwritten (e : ExtractedExpert)
    (existing : String → Option String) (user_edits : List String)
    (f : String) (hf : f ∈ user_edits) :
    apply_updates existing (build_updates e existing user_edits) f =
      existing f := by
  have hkeys : ∀ p ∈ build_updates e existing user_edits, p.1 ≠ f := by
    intro p hp he
    unfold build_updates at hp
    simp only [List.mem_append] at hp
    rcases hp with ((((h | h) | h) | h) | h)
    · exact updEntry_not_pinned h (he ▸ hf)
    · exact updEntry_not_pinned h (he ▸ hf)
    · exact updEntry_not_pinned h (he ▸ hf)
    · exact updEntry_not_pinned h (he ▸ hf)
    · exact statusUpd_not_pinned h (he ▸ hf)
  unfold apply_updates
  rw [lookup_eq_none_of_keys hkeys]

/-- Closed instance of the pinned-field guarantee: a pinned employer keeps
its stored value even when the extraction carries a different one. -/
theorem pinned_fields_never_overwritten_witness :
    apply_updates (fun k => if k = "canonicalEmployer" then some "OldCorp" else none)
      (build_updates ⟨"Jane Doe", some "NewCorp", none, none, none, none, none⟩
        (fun k => if k = "canonicalEmployer" then some "OldCorp" else none)
        ["canonicalEmployer"])
      "canonicalEmployer" = some "OldCorp" :=
  pinned_fields_never_overwritten
    ⟨"Jane Doe", some "NewCorp", none, none, none, none, none⟩
    (fun k => if k = "canonicalEmployer" then some "OldCorp" else none)
    ["canonicalEmployer"] "canonicalEmployer" (by decide)

/-- C5 counterexample: the commit-service mapping disagrees with the claimed
fixed table on `pending`, `conflict` and `not_a_fit`. -/
theorem status_cue_mapping_counterexample :
    map_status_cue_to_status (some "pending") = "awaiting_screeners" ∧
    map_status_cue_to_status (some "pending") ≠ "pending" ∧
    map_status_cue_to_status (some "conflict") ≠ "declined" ∧
    map_status_cue_to_status (some "not_a_fit") ≠ "declined" := by
  decide

/-- C5 amended: the change-detection path uses the claimed fixed table and a
cue of `unknown` stages no status change, while the commit-service mapping
maps `conflict` to `conflict`, `not_a_fit` to `screened_out`, `pending` to
`awaiting_screeners`, and `unknown`/missing to `recommended`. -/
theorem status_cue_mapping_amended :
    status_mapping_auto "available" = some "recommended" ∧
    status_mapping_auto "interested" = some "recommended" ∧
    status_mapping_auto "pending" = some "pending" ∧
    status_mapping_auto "declined" = some "declined" ∧
    status_mapping_auto "conflict" = some "declined" ∧
    status_mapping_auto "not_a_fit" = some "declined" ∧
    status_mapping_auto "no_longer_available" = some "declined" ∧
    (∀ (existing : String → Option String) (user_edits : List String),
      statusUpd ⟨"n", none, none, none, none, some "unknown", none⟩
        existing user_edits = []) ∧
    map_status_cue_to_status (some "available") = "recommended" ∧
    map_status_cue_to_status (some "interested") = "recommended" ∧
    map_status_cue_to_status (some "declined") = "declined" ∧
    map_status_cue_to_status (some "no_longer_available") = "declined" ∧
    map_status_cue_to_status (some "conflict") = "conflict" ∧
    map_status_cue_to_status (some "not_a_fit") = "screened_out" ∧
    map_status_cue_to_status (some "pending") = "awaiting_screeners" ∧
    map_status_cue_to_status (some "unknown") = "recommended" ∧
    map_status_cue_to_status none = "recommended" := by
  refine ⟨by decide, by decide, by decide, by decide, by decide, by decide,
    by decide, ?_, by decide, by decide, by decide, by decide, by decide,
    by decide, by decide, by decide, by decide⟩
  intro existing user_edits
  simp [statusUpd]

/-! ## Similarity engine (`expert_dedupe.py`) -/

/-- Python's `\w` class (ASCII range). -/
def isWordChar (c : Char) : Bool := c.isAlphanum || c = '_'

/-- `expert_dedupe.normalize_name`: lowercase, strip, collapse whitespace,
remove `[^\w\s]`. -/
def normalize_name (name : String) : String :=
  String.mk (List.filter (fun c => isWordChar c || c.isWhitespace)
    (collapseRuns (pyStrip (name.data.map Char.toLower))))

/-- The legal-entity suffixes stripped by `normalize_employer`. -/
def legal_suffixes : List String :=
  ["inc", "llc", "ltd", "corp", "corporation", "company", "co"]

/-- Emit one accumulated word token (held reversed), dropping it when it is a
legal-entity suffix; used to implement the `\b(...)\b` removal. -/
def emitTok (acc rest : List Char) : List Char :=
  if legal_suffixes.contains (String.mk acc.reverse) then rest
  else acc.reverse ++ rest

/-- Token scanner for `re.sub(r'\b(inc|llc|ltd|corp|corporation|company|co)\b', '', s)`
over a string of word characters and whitespace (which is all that survives
the preceding punctuation removal). -/
def removeSuffixTokens : List Char → List Char → List Char
  | acc, [] => emitTok acc []
  | acc, c :: cs =>
    if isWordChar c then removeSuffixTokens (c :: acc) cs
    else emitTok acc (c :: removeSuffixTokens [] cs)

/-- `expert_dedupe.normalize_employer`. -/
def normalize_employer (employer : String) : String :=
  let x := List.filter (fun c => isWordChar c || c.isWhitespace)
    (collapseRuns (pyStrip (employer.data.map Char.toLower)))
  String.mk (pyStrip (removeSuffixTokens [] x))

/-- Substitution cost `(c1 != c2)` in the Levenshtein inner loop. -/
def lcost (c1 c2 : Char) : Nat := if c1 = c2 then 0 else 1

/-- Reference recursive Levenshtein distance (proof device used to reason
about the row-based implementation below). -/
def levRec : List Char → List Char → Nat
  | [], ys => ys.length
  | x :: xs, [] => (x :: xs).length
  | x :: xs, y :: ys =>
    min (min (levRec xs (y :: ys) + 1) (levRec (x :: xs) ys + 1))
        (levRec xs ys + lcost x y)
termination_by a b => (a.length, b.length)

/-- The inner `for j, c2 in enumerate(b)` loop of
`expert_dedupe.levenshtein_distance`: `last` is `current_row[j]`, the prev
list is aligned so its first two entries are `previous_row[j]` and
`previous_row[j+1]`. -/
def nextRowAux (c1 : Char) : Nat → List Nat → List Char → List Nat
  | last, p0 :: p1 :: ps, c2 :: cs =>
    min (min (p1 + 1) (last + 1)) (p0 + lcost c1 c2) ::
      nextRowAux c1 (min (min (p1 + 1) (last + 1)) (p0 + lcost c1 c2)) (p1 :: ps) cs
  | _, _, _ => []

/-- One outer-loop iteration: `current_row = [i + 1]` followed by the inner
loop. Since `previous_row[0] = i` throughout the source loop, `i + 1` is
`prev.head + 1`. -/
def nextRow (c1 : Char) (prev : List Nat) (b : List Char) : List Nat :=
  match prev with
  | [] => []
  | p0 :: _ => (p0 + 1) :: nextRowAux c1 (p0 + 1) prev b

/-- The body of `expert_dedupe.levenshtein_distance` for `len(a) >= len(b)`:
`previous_row = range(len(b)+1)`, fold the rows, return `previous_row[-1]`. -/
def levDP (a b : List Char) : Nat :=
  if b.length = 0 then a.length
  else (a.foldl (fun prev c1 => nextRow c1 prev b) (List.range (b.length + 1))).getLastD 0

/-- `expert_dedupe.levenshtein_distance`, including the initial argument swap
`if len(a) < len(b): return levenshtein_distance(b, a)`. -/
def levenshtein_distance (a b : List Char) : Nat :=
  if a.length < b.length then levDP b a else levDP a b

/-- `expert_dedupe.string_similarity` (scores as `ℚ`). -/
def string_similarity (a b : String) : ℚ :=
  if a = b then 1
  else if a.length = 0 ∨ b.length = 0 then 0
  else 1 - (levenshtein_distance a.data b.data : ℚ) /
    ((max a.length b.length : ℕ) : ℚ)

/-! Correctness of the row DP against the reference recursion, and symmetry. -/

/-- `D x y` is the distance between `x` and `y` read through reversal; the row
DP appends characters on the right, which is `levRec` consing on the left. -/
def D (x y : List Char) : Nat := levRec x.reverse y.reverse

/-- The row of distances `[D x (ys ++ take k cs) for k in 0..len cs]`. -/
def rowD (x : List Char) : List Char → List Char → List Nat
  | ys, [] => [D x ys]
  | ys, c2 :: cs => D x ys :: rowD x (ys ++ [c2]) cs

lemma levRec_nil_right (z : List Char) : levRec z [] = z.length := by
  cases z <;> simp [levRec]

lemma D_nil_right (x : List Char) : D x [] = x.length := by
  simp [D, levRec_nil_right]

lemma D_nil_left (y : List Char) : D [] y = y.length := by
  simp [D, levRec]

lemma D_snoc (x ys : List Char) (c1 c2 : Char) :
    D (x ++ [c1]) (ys ++ [c2]) =
      min (min (D x (ys ++ [c2]) + 1) (D (x ++ [c1]) ys + 1))
        (D x ys + lcost c1 c2) := by
  simp only [D, List.reverse_append, List.reverse_singleton, List.singleton_append]
  rw [levRec]

lemma rowD_head (x ys cs : List Char) :
    rowD x ys cs = D x ys :: (rowD x ys cs).tail := by
  cases cs <;> rfl

lemma row_step (c1 : Char) (x : List Char) : ∀ (cs ys : List Char),
    D (x ++ [c1]) ys ::
      nextRowAux c1 (D (x ++ [c1]) ys) (rowD x ys cs) cs =
    rowD (x ++ [c1]) ys cs := by
  intro cs
  induction cs with
  | nil => intro ys; rfl
  | cons c2 cs' ih =>
    intro ys
    show D (x ++ [c1]) ys ::
        nextRowAux c1 (D (x ++ [c1]) ys) (D x ys :: rowD x (ys ++ [c2]) cs')
          (c2 :: cs') = _
    rw [rowD_head x (ys ++ [c2]) cs']
    rw [nextRowAux]
    rw [← D_snoc x ys c1 c2]
    rw [← rowD_head x (ys ++ [c2]) cs']
    show D (x ++ [c1]) ys ::
        D (x ++ [c1]) (ys ++ [c2]) ::
          nextRowAux c1 (D (x ++ [c1]) (ys ++ [c2])) (rowD x (ys ++ [c2]) cs') cs' = _
    rw [ih (ys ++ [c2])]
    rfl

lemma fold_step (b : List Char) : ∀ (rest x : List Char),
    rest.foldl (fun prev c1 => nextRow c1 prev b) (rowD x [] b) =
      rowD (x ++ rest) [] b := by
  intro rest
  induction rest with
  | nil => intro x; simp
  | cons c1 rest' ih =>
    intro x
    rw [List.foldl_cons]
    have hnext : nextRow c1 (rowD x [] b) b = rowD (x ++ [c1]) [] b := by
      rw [rowD_head x [] b]
      show (D x [] + 1) ::
          nextRowAux c1 (D x [] + 1) (D x [] :: (rowD x [] b).tail) b = _
      rw [← rowD_head x [] b]
      have h1 : D x [] + 1 = D (x ++ [c1]) [] := by
        simp [D_nil_right]
      rw [h1]
      exact row_step c1 x b []
    rw [hnext, ih (x ++ [c1])]
    rw [List.append_assoc]
    rfl

lemma rowD_nil_fun : ∀ (cs ys : List Char),
    rowD [] ys cs = List.range' ys.length (cs.length + 1) := by
  intro cs
  induction cs with
  | nil => intro ys; simp [rowD, D_nil_left, List.range'_one]
  | cons c cs' ih =>
    intro ys
    rw [rowD, D_nil_left, ih (ys ++ [c])]
    rw [List.length_cons, List.range'_succ]
    rw [List.length_append, List.length_singleton, List.range'_succ]
    rw [List.range'_succ]

lemma rowD_last (x : List Char) : ∀ (cs ys : List Char) (d : Nat),
    (rowD x ys cs).getLastD d = D x (ys ++ cs) := by
  intro cs
  induction cs with
  | nil => intro ys d; simp [rowD]
  | cons c cs' ih =>
    intro ys d
    rw [rowD, List.getLastD_cons, ih (ys ++ [c])]
    rw [List.append_assoc]
    rfl

lemma levDP_eq (a b : List Char) : levDP a b = D a b := by
  unfold levDP
  by_cases hb : b.length = 0
  · rw [if_pos hb]
    have : b = [] := List.length_eq_zero.mp hb
    subst this
    rw [D_nil_right]
  · rw [if_neg hb]
    have h1 : List.range (b.length + 1) = rowD [] [] b := by
      rw [List.range_eq_range', rowD_nil_fun b []]
      rfl
    rw [h1, fold_step b a [], List.nil_append, rowD_last a b [] 0,
      List.nil_append]

lemma lcost_comm (c1 c2 : Char) : lcost c1 c2 = lcost c2 c1 := by
  simp [lcost, eq_comm]

lemma levRec_symm : ∀ (a b : List Char), levRec a b = levRec b a := by
  intro a
  induction a with
  | nil => intro b; cases b <;> simp [levRec]
  | cons x xs ih =>
    intro b
    induction b with
    | nil => simp [levRec]
    | cons y ys ih2 =>
      rw [levRec]
      conv_rhs => rw [levRec]
      rw [ih (y :: ys), ih ys, ih2, lcost_comm]
      omega

lemma levenshtein_symm (a b : List Char) :
    levenshtein_distance a b = levenshtein_distance b a := by
  unfold levenshtein_distance
  rcases lt_trichotomy a.length b.length with h | h | h
  · rw [if_pos h, if_neg (not_lt.mpr (le_of_lt h))]
  · rw [if_neg (by omega), if_neg (by omega), levDP_eq, levDP_eq]
    exact levRec_symm _ _
  · rw [if_neg (not_lt.mpr (le_of_lt h)), if_pos h]

lemma string_similarity_symm (a b : String) :
    string_similarity a b = string_similarity b a := by
  unfold string_similarity
  by_cases hab : a = b
  · rw [if_pos hab, if_pos hab.symm]
  · rw [if_neg hab, if_neg (Ne.symm hab)]
    by_cases h0 : a.length = 0 ∨ b.length = 0
    · rw [if_pos h0, if_pos (Or.symm h0)]
    · rw [if_neg h0, if_neg (fun hc => h0 (Or.symm hc))]
      rw [levenshtein_symm, Nat.max_comm]

/-! ## Pairwise comparison and candidate search (`expert_dedupe.py`) -/

/-- `expert_dedupe.DedupeMatch`. -/
structure DedupeMatch where
  expert_id_a : String
  expert_id_b : String
  score : ℚ
  match_type : String
deriving DecidableEq

/-- One expert dict as consumed by `ExpertDedupeService`: `canonicalTitle`
distinguishes a missing key (`none`) from a key stored as SQL `NULL`
(`some none`), because `dict.get("canonicalTitle", "")` treats them
differently. -/
structure ProfileRow where
  id : String
  canonicalName : String
  canonicalEmployer : Option String
  canonicalTitle : Option (Option String)

/-- `normalize_employer(employer) if employer else None` (Python truthiness:
`None` and `""` are falsy). -/
def normEmployerOpt (employer : Option String) : Option String :=
  match employer with
  | none => none
  | some s => if s = "" then none else some (normalize_employer s)

/-- Python truthiness of an optional string. -/
def optTruthy : Option String → Bool
  | none => false
  | some s => s != ""

/-- `expert.get("canonicalTitle", "").lower()`: a missing key falls back to
`""`; a key stored as `None` raises `AttributeError` (modelled as `none`). -/
def pyGetLowerTitle : Option (Option String) → Option String
  | none => some ""
  | some none => none
  | some (some s) => some (pyLower s)

/-- The title-similarity sub-branch of rule 2 in `_compare_experts`:
both titles must be readable (else `AttributeError`), a similarity above 0.7
or two empty titles yields the 0.65 medium match, otherwise control falls
through to rule 3. -/
def titleBranch (idA idB : String) (tAo tBo : Option String)
    (fallback : Except String (Option DedupeMatch)) :
    Except String (Option DedupeMatch) :=
  match tAo, tBo with
  | some tA, some tB =>
    if decide (string_similarity tA tB > 0.7) || (tA == "" && tB == "") then
      .ok (some ⟨idA, idB, 0.65, "medium_name_roles"⟩)
    else fallback
  | _, _ => .error "AttributeError"

/-- `ExpertDedupeService._compare_experts`, with the `AttributeError` on a
null title surfaced in the `Except` layer. -/
def compare_experts (A B : ProfileRow) : Except String (Option DedupeMatch) :=
  let nA := normalize_name A.canonicalName
  let nB := normalize_name B.canonicalName
  let eA := normEmployerOpt A.canonicalEmployer
  let eB := normEmployerOpt B.canonicalEmployer
  let exactName : Bool := nA == nB
  let nameSim : ℚ := string_similarity nA nB
  let fuzzyName : Bool := decide (nameSim > 0.85)
  if !exactName && !fuzzyName then .ok none
  else
    let bothEmp : Bool := optTruthy eA && optTruthy eB
    let exactEmp : Bool := bothEmp && (eA == eB)
    let empSim : ℚ := if bothEmp then string_similarity (eA.getD "") (eB.getD "") else 0
    let fuzzyEmp : Bool := bothEmp && decide (empSim > 0.8)
    let rule3 : Except String (Option DedupeMatch) :=
      if fuzzyName && fuzzyEmp then
        .ok (some ⟨A.id, B.id, 0.6 * nameSim * empSim, "fuzzy_name_employer"⟩)
      else .ok none
    if exactName && exactEmp then
      .ok (some ⟨A.id, B.id, 0.95, "strong_name_employer"⟩)
    else if exactName then
      if !(optTruthy eA) || !(optTruthy eB) then
        titleBranch A.id B.id (pyGetLowerTitle A.canonicalTitle)
          (pyGetLowerTitle B.canonicalTitle) rule3
      else .ok (some ⟨A.id, B.id, 0.75, "medium_name_roles"⟩)
    else rule3

/-- The descending-score order of `matches.sort(key=..., reverse=True)`. -/
def scoreDescRel (m1 m2 : DedupeMatch) : Prop := m2.score ≤ m1.score

instance : DecidableRel scoreDescRel := fun m1 m2 => by
  unfold scoreDescRel; infer_instance

/-- The collection loop of `ExpertDedupeService.find_duplicate_candidates`
(a raised `AttributeError` aborts the whole call). -/
def collect_candidates (new_expert : ProfileRow) :
    List ProfileRow → Except String (List DedupeMatch)
  | [] => .ok []
  | e :: rest =>
    if e.id == new_expert.id then collect_candidates new_expert rest
    else
      match compare_experts new_expert e with
      | .error s => .error s
      | .ok none => collect_candidates new_expert rest
      | .ok (some m) =>
        match collect_candidates new_expert rest with
        | .error s => .error s
        | .ok ms => .ok (m :: ms)

/-- `ExpertDedupeService.find_duplicate_candidates`. -/
def find_duplicate_candidates (new_expert : ProfileRow)
    (existing_experts : List ProfileRow) : Except String (List DedupeMatch) :=
  match collect_candidates new_expert existing_experts with
  | .error s => .error s
  | .ok ms => .ok (ms.insertionSort scoreDescRel)

/-- The score a comparison outcome assigns, if any. -/
def scoreOf : Except String (Option DedupeMatch) → Option ℚ
  | .ok (some m) => some m.score
  | _ => none

lemma beq_symm {α : Type} [BEq α] [LawfulBEq α] (a b : α) :
    (a == b) = (b == a) := by
  by_cases h : a = b
  · subst h; rfl
  · rw [beq_eq_false_iff_ne.mpr h, beq_eq_false_iff_ne.mpr (Ne.symm h)]

lemma titleBranch_score_symm {idA idB idA2 idB2 : String} {tAo tBo : Option String}
    {fb fb2 : Except String (Option DedupeMatch)}
    (hfb : scoreOf fb = scoreOf fb2) :
    scoreOf (titleBranch idA idB tAo tBo fb) =
      scoreOf (titleBranch idA2 idB2 tBo tAo fb2) := by
  cases tAo with
  | none => cases tBo <;> simp [titleBranch, scoreOf]
  | some ta =>
    cases tBo with
    | none => simp [titleBranch, scoreOf]
    | some tb =>
      simp only [titleBranch]
      rw [string_similarity_symm tb ta, Bool.and_comm (tb == "") (ta == "")]
      split_ifs with h
      · simp [scoreOf]
      · exact hfb

set_option maxHeartbeats 2000000 in
/-- C9: the underlying string similarity is symmetric, and the score the
comparison assigns to a pair of profiles does not depend on argument order. -/
theorem similarity_symmetry :
    (∀ a b : String, string_similarity a b = string_similarity b a) ∧
    (∀ A B : ProfileRow,
      scoreOf (compare_experts A B) = scoreOf (compare_experts B A)) := by
  refine ⟨string_similarity_symm, ?_⟩
  intro A B
  simp only [compare_experts]
  rw [beq_symm (normalize_name B.canonicalName) (normalize_name A.canonicalName)]
  rw [string_similarity_symm (normalize_name B.canonicalName)
    (normalize_name A.canonicalName)]
  rw [beq_symm (normEmployerOpt B.canonicalEmployer)
    (normEmployerOpt A.canonicalEmployer)]
  rw [string_similarity_symm ((normEmployerOpt B.canonicalEmployer).getD "")
    ((normEmployerOpt A.canonicalEmployer).getD "")]
  rw [Bool.and_comm (optTruthy (normEmployerOpt B.canonicalEmployer))
    (optTruthy (normEmployerOpt A.canonicalEmployer))]
  rw [Bool.or_comm (!optTruthy (normEmployerOpt B.canonicalEmployer))
    (!optTruthy (normEmployerOpt A.canonicalEmployer))]
  set n1 := normalize_name A.canonicalName
  set n2 := normalize_name B.canonicalName
  set g1 := normEmployerOpt A.canonicalEmployer
  set g2 := normEmployerOpt B.canonicalEmployer
  set s1 := string_similarity n1 n2
  set s2 := string_similarity (g1.getD "") (g2.getD "")
  split_ifs <;>
    first
      | (simp [scoreOf]; done)
      | exact titleBranch_score_symm (by simp [scoreOf])

/-- C10: `find_duplicate_candidates` raises `AttributeError` when the two
normalized names match exactly, an employer is missing, and a `canonicalTitle`
is stored as SQL `NULL` — `.lower()` is called on `None`. -/
theorem find_duplicate_candidates_title_crash :
    find_duplicate_candidates
      ⟨"idA", "John Smith", none, some none⟩
      [⟨"idB", "john  smith", none, some (some "CEO")⟩] =
      Except.error "AttributeError" := by
  rfl

/-- C4: with exactly equal normalized names and readable titles, a missing
employer on either side yields the 0.65 medium match exactly when title
similarity exceeds 0.7, and two present-but-different employers yield the
0.75 medium match. -/
theorem medium_tier_scores (A B : ProfileRow) (tA tB : String)
    (hname : normalize_name A.canonicalName = normalize_name B.canonicalName)
    (htA : pyGetLowerTitle A.canonicalTitle = some tA)
    (htB : pyGetLowerTitle B.canonicalTitle = some tB) :
    ((optTruthy (normEmployerOpt A.canonicalEmployer) = false ∨
      optTruthy (normEmployerOpt B.canonicalEmployer) = false) →
      (compare_experts A B =
          Except.ok (some ⟨A.id, B.id, 0.65, "medium_name_roles"⟩) ↔
        string_similarity tA tB > 0.7)) ∧
    (optTruthy (normEmployerOpt A.canonicalEmployer) = true →
      optTruthy (normEmployerOpt B.canonicalEmployer) = true →
      normEmployerOpt A.canonicalEmployer ≠ normEmployerOpt B.canonicalEmployer →
      compare_experts A B =
        Except.ok (some ⟨A.id, B.id, 0.75, "medium_name_roles"⟩)) := by
  have hbeqName : (normalize_name A.canonicalName ==
      normalize_name B.canonicalName) = true := beq_iff_eq.mpr hname
  constructor
  · intro hmiss
    have hboth : (optTruthy (normEmployerOpt A.canonicalEmployer) &&
        optTruthy (normEmployerOpt B.canonicalEmployer)) = false := by
      rcases hmiss with h | h <;> simp [h]
    have hor : (!(optTruthy (normEmployerOpt A.canonicalEmployer)) ||
        !(optTruthy (normEmployerOpt B.canonicalEmployer))) = true := by
      rcases hmiss with h | h <;> simp [h]
    by_cases hsim : string_similarity tA tB > 0.7
    · simp [compare_experts, hbeqName, hboth, hor, htA, htB, titleBranch, hsim]
    · have hne : ¬((tA == "" && tB == "") = true) := by
        intro hbb
        have hpair : tA = "" ∧ tB = "" := by simpa using hbb
        rcases hpair with ⟨h1, h2⟩
        subst h1
        subst h2
        apply hsim
        norm_num [string_similarity]
      simp [compare_experts, hbeqName, hboth, hor, htA, htB, titleBranch,
        hsim, hne]
  · intro hA hB hneq
    have hbothT : (optTruthy (normEmployerOpt A.canonicalEmployer) &&
        optTruthy (normEmployerOpt B.canonicalEmployer)) = true := by
      simp [hA, hB]
    have hbeqE : (normEmployerOpt A.canonicalEmployer ==
        normEmployerOpt B.canonicalEmployer) = false :=
      beq_eq_false_iff_ne.mpr hneq
    have hor2 : (!(optTruthy (normEmployerOpt A.canonicalEmployer)) ||
        !(optTruthy (normEmployerOpt B.canonicalEmployer))) = false := by
      simp [hA, hB]
    simp [compare_experts, hbeqName, hbothT, hbeqE, hor2]

/-- Closed instance of the medium-tier law: same normalized name, employers
missing, identical titles (similarity 1 > 0.7) gives the 0.65 medium match. -/
theorem medium_tier_scores_witness :
    compare_experts ⟨"ida", "Jane Doe", none, some (some "CEO")⟩
      ⟨"idb", "jane doe", none, some (some "CEO")⟩ =
      Except.ok (some ⟨"ida", "idb", 0.65, "medium_name_roles"⟩) :=
  ((medium_tier_scores
      ⟨"ida", "Jane Doe", none, some (some "CEO")⟩
      ⟨"idb", "jane doe", none, some (some "CEO")⟩
      "ceo" "ceo" rfl rfl rfl).1 (Or.inl rfl)).mpr
    (by norm_num [string_similarity])

/-! ## Canonical merge resolver (`expert_dedupe.merge_experts`) -/

/-- One persisted `Expert` row as read by `merge_experts`. -/
structure ExpertRow where
  id : String
  canonicalName : Option String
  canonicalEmployer : Option String
  canonicalTitle : Option String
deriving DecidableEq

/-- One `ExpertSource` row (only the merge-relevant columns). -/
structure SourceRow where
  id : String
  expertId : String
deriving DecidableEq

/-- The relational store touched by `merge_experts`. -/
structure MergeDB where
  experts : List ExpertRow
  sources : List SourceRow

/-- `SELECT * FROM Expert WHERE id = :id` via `fetch_one`. -/
def fetch_expert (db : MergeDB) (i : String) : Option ExpertRow :=
  db.experts.find? (fun e => e.id == i)

/-- `ExpertDedupeService._calculate_completeness_score`: the source returns a
float, but its value is always the integer count of truthy fields, so `Nat`
is a faithful model for the `>=` comparison. -/
def calculate_completeness_score (expert : ExpertRow) : Nat :=
  (if optTruthy expert.canonicalName then 1 else 0) +
  (if optTruthy expert.canonicalEmployer then 1 else 0) +
  (if optTruthy expert.canonicalTitle then 1 else 0)

/-- `ExpertDedupeService.merge_experts`: fetch both, keep the more complete
record (ties keep the first argument), reassign the loser's sources, delete
the loser, and return the canonical row re-fetched from the store. -/
def merge_experts (db : MergeDB) (expert_id_a expert_id_b : String) :
    Except String (MergeDB × ExpertRow) :=
  match fetch_expert db expert_id_a, fetch_expert db expert_id_b with
  | some ea, some eb =>
    let score_a := calculate_completeness_score ea
    let score_b := calculate_completeness_score eb
    let canonical_id := if score_a ≥ score_b then expert_id_a else expert_id_b
    let merged_id := if score_a ≥ score_b then expert_id_b else expert_id_a
    let db2 : MergeDB :=
      { experts := db.experts.filter (fun e => !(e.id == merged_id)),
        sources := db.sources.map fun s =>
          if s.expertId == merged_id then { s with expertId := canonical_id }
          else s }
    match fetch_expert db2 canonical_id with
    | some canonical => .ok (db2, canonical)
    | none => .error "TypeError"
  | _, _ => .error "One or both experts not found"

/-- The surviving field values of a merge, when it succeeds. -/
def survivorFields (db : MergeDB) (ia ib : String) :
    Option (Option String × Option String × Option String) :=
  match merge_experts db ia ib with
  | .ok (_, c) => some (c.canonicalName, c.canonicalEmployer, c.canonicalTitle)
  | .error _ => none

lemma fetch_filter_ne (l : List ExpertRow) (i j : String) (h : i ≠ j) :
    (l.filter (fun e => !(e.id == j))).find? (fun e => e.id == i) =
      l.find? (fun e => e.id == i) := by
  induction l with
  | nil => rfl
  | cons e es ih =>
    by_cases he : e.id = i
    · have h1 : e.id ≠ j := by rw [he]; exact h
      simp [List.filter_cons, List.find?, beq_eq_false_iff_ne.mpr h1,
        beq_iff_eq.mpr he]
    · by_cases hej : e.id = j
      · simp [List.filter_cons, List.find?, beq_iff_eq.mpr hej,
          beq_eq_false_iff_ne.mpr he, ih]
      · simp [List.filter_cons, List.find?, beq_eq_false_iff_ne.mpr he,
          beq_eq_false_iff_ne.mpr hej, ih]

lemma survivor_keepA (db : MergeDB) (ia ib : String) (ea eb : ExpertRow)
    (ha : fetch_expert db ia = some ea) (hb : fetch_expert db ib = some eb)
    (hne : ia ≠ ib)
    (hs : calculate_completeness_score ea ≥ calculate_completeness_score eb) :
    survivorFields db ia ib =
      some (ea.canonicalName, ea.canonicalEmployer, ea.canonicalTitle) := by
  have hfix :
      (db.experts.filter (fun e => !(e.id == ib))).find? (fun e => e.id == ia) =
        some ea := by
    rw [fetch_filter_ne db.experts ia ib hne]
    exact ha
  unfold survivorFields merge_experts
  rw [ha, hb]
  simp only [if_pos hs]
  unfold fetch_expert
  rw [hfix]

lemma survivor_keepB (db : MergeDB) (ia ib : String) (ea eb : ExpertRow)
    (ha : fetch_expert db ia = some ea) (hb : fetch_expert db ib = some eb)
    (hne : ia ≠ ib)
    (hs : ¬(calculate_completeness_score ea ≥ calculate_completeness_score eb)) :
    survivorFields db ia ib =
      some (eb.canonicalName, eb.canonicalEmployer, eb.canonicalTitle) := by
  have hfix :
      (db.experts.filter (fun e => !(e.id == ia))).find? (fun e => e.id == ib) =
        some eb := by
    rw [fetch_filter_ne db.experts ib ia hne.symm]
    exact hb
  unfold survivorFields merge_experts
  rw [ha, hb]
  simp only [if_neg hs]
  unfold fetch_expert
  rw [hfix]

/-- C6 counterexample: two records with equal completeness scores but
different employers — `merge(A,B)` keeps A's fields while `merge(B,A)` keeps
B's, so merging is not symmetric on ties. -/
theorem merge_order_counterexample :
    survivorFields
      ⟨[⟨"a", some "Xavier Yu", some "E1", none⟩,
        ⟨"b", some "Xavier Yu", some "E2", none⟩], []⟩ "a" "b" =
      some (some "Xavier Yu", some "E1", none) ∧
    survivorFields
      ⟨[⟨"a", some "Xavier Yu", some "E1", none⟩,
        ⟨"b", some "Xavier Yu", some "E2", none⟩], []⟩ "b" "a" =
      some (some "Xavier Yu", some "E2", none) ∧
    (some "E1" : Option String) ≠ some "E2" := by
  refine ⟨by rfl, by rfl, by decide⟩

/-- C6 amended: for records with distinct completeness scores the merge is
order-insensitive (the more complete record's fields survive); on ties the
first argument's fields survive. -/
theorem merge_determinism_amended (db : MergeDB) (ia ib : String)
    (ea eb : ExpertRow)
    (ha : fetch_expert db ia = some ea) (hb : fetch_expert db ib = some eb)
    (hne : ia ≠ ib) :
    (calculate_completeness_score ea ≠ calculate_completeness_score eb →
      survivorFields db ia ib = survivorFields db ib ia ∧
      (survivorFields db ia ib).isSome = true) ∧
    (calculate_completeness_score ea = calculate_completeness_score eb →
      survivorFields db ia ib =
        some (ea.canonicalName, ea.canonicalEmployer, ea.canonicalTitle) ∧
      survivorFields db ib ia =
        some (eb.canonicalName, eb.canonicalEmployer, eb.canonicalTitle)) := by
  constructor
  · intro hs
    rcases Nat.lt_or_ge (calculate_completeness_score eb)
        (calculate_completeness_score ea) with hgt | hle
    · have h1 := survivor_keepA db ia ib ea eb ha hb hne (Nat.le_of_lt hgt)
      have h2 := survivor_keepB db ib ia eb ea hb ha hne.symm
        (by omega)
      rw [h1, h2]
      simp
    · have hlt : calculate_completeness_score ea <
          calculate_completeness_score eb := by omega
      have h1 := survivor_keepB db ia ib ea eb ha hb hne (by omega)
      have h2 := survivor_keepA db ib ia eb ea hb ha hne.symm (by omega)
      rw [h1, h2]
      simp
  · intro hs
    constructor
    · exact survivor_keepA db ia ib ea eb ha hb hne (by omega)
    · exact survivor_keepA db ib ia eb ea hb ha hne.symm (by omega)

/-- Closed instance of the amended merge determinism on a non-tied pair. -/
theorem merge_determinism_amended_witness :
    survivorFields
      ⟨[⟨"a", some "Noa Li", some "E", some "T"⟩,
        ⟨"b", some "Noa Li", none, none⟩], []⟩ "a" "b" =
    survivorFields
      ⟨[⟨"a", some "Noa Li", some "E", some "T"⟩,
        ⟨"b", some "Noa Li", none, none⟩], []⟩ "b" "a" :=
  ((merge_determinism_amended
      ⟨[⟨"a", some "Noa Li", some "E", some "T"⟩,
        ⟨"b", some "Noa Li", none, none⟩], []⟩ "a" "b"
      ⟨"a", some "Noa Li", some "E", some "T"⟩
      ⟨"b", some "Noa Li", none, none⟩
      rfl rfl (by decide)).1 (by decide)).1

/-! ## Batch scan coordinator (`outlook_scanning.scan_inbox`,
`db/queries/scan_runs.py`, `db/queries/scanned_emails.py`) -/

/-- One fetched, filtered inbox message: its provider id and the length of
its stripped body text. -/
structure ScanMsg where
  id : String
  bodyLen : Nat
deriving DecidableEq

/-- Outcome recorded in the `results` list of the per-message loop. -/
inductive MsgResult
  | success
  | failed
  | skipped
deriving DecidableEq

/-- State threaded through the sequential per-message loop: the `results`
list and the `ScannedEmail` rows written so far. -/
structure LoopState where
  results : List MsgResult
  scanned : List String

/-- Dropping messages that already have a `ScannedEmail` idempotency row
(step 3 of `scan_inbox`). -/
def newMessages (msgs : List ScanMsg) (scanned_ids : List String) : List ScanMsg :=
  msgs.filter fun m => !(scanned_ids.contains m.id)

/-- The sequential per-message loop of `scan_inbox`: a short body is
`skipped` without a `ScannedEmail` row; otherwise the message is processed,
and a `ScannedEmail` row is recorded whether processing succeeds or raises
(the `except` branch records it too, so a rerun never retries it). -/
def runLoop (throwsOn : String → Bool) (msgs : List ScanMsg) : LoopState :=
  msgs.foldl
    (fun st m =>
      if m.bodyLen < 50 then
        { st with results := st.results ++ [MsgResult.skipped] }
      else if throwsOn m.id then
        { results := st.results ++ [MsgResult.failed],
          scanned := st.scanned ++ [m.id] }
      else
        { results := st.results ++ [MsgResult.success],
          scanned := st.scanned ++ [m.id] })
    ⟨[], []⟩

/-- `emails_processed` in the aggregation pass. -/
def emails_processed (st : LoopState) : Nat := st.results.count MsgResult.success

/-- `progress.error_count` in the aggregation pass. -/
def error_count (st : LoopState) : Nat := st.results.count MsgResult.failed

/-- Whether a Python keyword-argument call binds: every passed keyword must
be a parameter of the callee and every parameter without a default must be
passed, else the call raises `TypeError`. -/
def pythonCallBinds (accepted required passed : List String) : Bool :=
  passed.all (fun k => accepted.contains k) &&
    required.all (fun k => passed.contains k)

/-- Parameters of `scan_runs.create_scan_run`. -/
def create_scan_run_params : List String := ["db", "project_id", "max_emails"]

/-- Parameters of `scan_runs.create_scan_run` without defaults. -/
def create_scan_run_required : List String := ["db", "project_id", "max_emails"]

/-- Keywords passed by `scan_inbox` to `create_scan_run`. -/
def scan_inbox_create_call_kwargs : List String :=
  ["db", "project_id", "max_emails", "sender_domains", "keywords"]

/-- Parameters of `scan_runs.complete_scan_run`. -/
def complete_scan_run_params : List String :=
  ["db", "scan_run_id", "status", "experts_added", "experts_updated",
   "experts_merged", "ingestion_log_id", "error_message", "error_details"]

/-- Parameters of `scan_runs.complete_scan_run` without defaults. -/
def complete_scan_run_required : List String := ["db", "scan_run_id", "status"]

/-- Keywords passed by `scan_inbox` to `complete_scan_run`. -/
def scan_inbox_complete_call_kwargs : List String :=
  ["db", "scan_run_id", "messages_processed", "messages_skipped",
   "messages_failed", "experts_added", "experts_updated", "experts_merged",
   "added_experts", "updated_experts", "skipped_reasons", "errors",
   "processed_details", "ingestion_log_id"]

/-- Parameters of `AutoIngestionService.auto_ingest` (bound method). -/
def auto_ingest_params : List String :=
  ["db", "project_id", "email_text", "network", "project_hypothesis",
   "screener_config", "auto_merge_threshold", "skip_log"]

/-- Parameters of `auto_ingest` without defaults. -/
def auto_ingest_required : List String :=
  ["db", "project_id", "email_text", "network", "project_hypothesis",
   "screener_config"]

/-- Keywords passed by `scan_inbox` to `auto_ingest` for each message. -/
def scan_inbox_auto_ingest_call_kwargs : List String :=
  ["db", "project_id", "email_text", "network", "project_hypothesis",
   "screener_config", "skip_log", "scan_created_expert_ids"]

/-- The claimed five-message batch with message 3 raising. -/
def scenario_msgs : List ScanMsg :=
  [⟨"m1", 500⟩, ⟨"m2", 500⟩, ⟨"m3", 500⟩, ⟨"m4", 500⟩, ⟨"m5", 500⟩]

/-- Extraction of message 3 raises; the others succeed. -/
def scenario_throws (i : String) : Bool := i == "m3"

/-- The loop state after scanning the batch (no message scanned before). -/
def scenario_run : LoopState := runLoop scenario_throws (newMessages scenario_msgs [])

/-- C1: the per-message loop does count 4 processed and 1 failed, records a
`ScannedEmail` row for the failing message, and a rerun of the same batch
skips every message — but the `ScanRun` completion the claim describes never
happens: `scan_inbox` calls `create_scan_run` and `complete_scan_run` with
keyword arguments their signatures do not accept (and omits the required
`status`), so both calls raise `TypeError`, which the surrounding
`try/except` swallows. Worse, the per-message `auto_ingest` call passes a
`scan_created_expert_ids` keyword that `auto_ingest` does not accept, so in
the shipped code every message raises `TypeError` and is recorded as failed:
the claimed 4/1 split is unreachable. -/
theorem scan_run_completion_code_bug :
    emails_processed scenario_run = 4 ∧
    error_count scenario_run = 1 ∧
    "m3" ∈ scenario_run.scanned ∧
    newMessages scenario_msgs scenario_run.scanned = [] ∧
    pythonCallBinds create_scan_run_params create_scan_run_required
      scan_inbox_create_call_kwargs = false ∧
    pythonCallBinds complete_scan_run_params complete_scan_run_required
      scan_inbox_complete_call_kwargs = false ∧
    complete_scan_run_params.contains "messages_processed" = false ∧
    complete_scan_run_params.contains "messages_failed" = false ∧
    scan_inbox_complete_call_kwargs.contains "status" = false ∧
    pythonCallBinds auto_ingest_params auto_ingest_required
      scan_inbox_auto_ingest_call_kwargs = false ∧
    auto_ingest_params.contains "scan_created_expert_ids" = false ∧
    emails_processed (runLoop (fun _ => true)
      (newMessages scenario_msgs [])) = 0 ∧
    error_count (runLoop (fun _ => true)
      (newMessages scenario_msgs [])) = 5 := by
  decide
